import Mathlib

set_option maxHeartbeats 1000000

/-!
Shallow embedding of the odyssey-bot RAG pipeline (src/setup.py and
src/rag_engine.py).  Python strings are modelled as `List Char`; Python's
text operations (`len`, slicing, `str.split`, `str.strip`) are explicit
recursive definitions mirroring their semantics on ASCII text.  Vector
distances are modelled as rationals.
-/

/-- ASCII whitespace recognised by Python `str.strip()` and by the regex
class backslash-s (unicode whitespace is out of scope here). -/
def pyIsSpace (c : Char) : Bool :=
  c = ' ' || c = '\t' || c = '\n' || c = '\r' || c = '\x0b' || c = '\x0c'

/-- Python `s.strip()`: drop leading and trailing whitespace. -/
def pyStrip (l : List Char) : List Char :=
  ((l.dropWhile pyIsSpace).reverse.dropWhile pyIsSpace).reverse

/-- The two-character paragraph separator, Python `"\n\n"`. -/
def nl2 : List Char := ['\n', '\n']

/-- Python `s.split("\n\n")`: split on each non-overlapping, leftmost
occurrence of the two-character blank-line separator. -/
def splitPar : List Char → List (List Char)
  | [] => [[]]
  | '\n' :: '\n' :: rest => [] :: splitPar rest
  | c :: rest =>
    match splitPar rest with
    | [] => [[c]]
    | h :: t => (c :: h) :: t

/-- Python `s[-n:]`: for `n = 0` the whole string (Python `s[-0:] = s`),
otherwise the last `min n (len s)` characters. -/
def pyTail (n : Nat) (l : List Char) : List Char :=
  if n = 0 then l else l.drop (l.length - n)

/-- Python `text[s:e]`. -/
def pySlice (l : List Char) (s e : Nat) : List Char := (l.take e).drop s

/-- `estimate_tokens` from src/setup.py: `len(text) // 4`. -/
def estimate_tokens (text : List Char) : Nat := text.length / 4

/-- `config.CHUNK_SIZE` from src/config.py. -/
def CHUNK_SIZE : Nat := 800

/-- `config.CHUNK_OVERLAP` from src/config.py. -/
def CHUNK_OVERLAP : Nat := 100

/-! ### Section splitter (`parse_books`, src/setup.py lines 92-120) -/

/-- What the character class `[IVX]` matches under `re.IGNORECASE`. -/
def isRoman (c : Char) : Bool :=
  c = 'I' || c = 'V' || c = 'X' || c = 'i' || c = 'v' || c = 'x'

/-- Attempt to match the pattern `BOOK`, one-or-more whitespace, then a
captured run of one-or-more `[IVX]` characters (all case-insensitive,
as compiled with `re.IGNORECASE`) at the head of the list.  Both
quantified classes are disjoint from what follows them, so greedy
maximal munch is exact.  Returns the captured group and the total
length of the match. -/
def tryMatch : List Char → Option (List Char × Nat)
  | b :: o1 :: o2 :: k :: rest =>
    if b.toLower = 'b' && o1.toLower = 'o' && o2.toLower = 'o' && k.toLower = 'k' then
      let ws := rest.takeWhile pyIsSpace
      if ws = [] then none
      else
        let rest2 := rest.drop ws.length
        let g := rest2.takeWhile isRoman
        if g = [] then none
        else some (g, 4 + ws.length + g.length)
    else none
  | _ => none

/-- Fuelled scanner for `re.finditer`: walk left to right, at each
position try the pattern; on a match (whose length is always at least 6,
hence at least 1) resume after its end, otherwise advance one position.
`rest.drop (len - 1)` equals `(c :: rest).drop len` since `len ≥ 1`.
Each step consumes at least one character, so fuel `l.length` suffices.
Produces `(start, end, group)` triples. -/
def findIterF : Nat → List Char → Nat → List (Nat × Nat × List Char)
  | _, [], _ => []
  | 0, _ :: _, _ => []
  | fuel + 1, c :: rest, pos =>
    match tryMatch (c :: rest) with
    | some (g, len) => (pos, pos + len, g) :: findIterF fuel (rest.drop (len - 1)) (pos + len)
    | none => findIterF fuel rest (pos + 1)

/-- `re.finditer(r'BOOK\s+([IVX]+)', text, re.IGNORECASE)` as a list of
`(start, end, group)` triples. -/
def findIter (l : List Char) : List (Nat × Nat × List Char) :=
  findIterF l.length l 0

/-- A book record as built by `parse_books`: keys `number`, `text`,
`start`, `end` (the last renamed `stop`, `end` being a Lean keyword). -/
structure Book where
  number : List Char
  text : List Char
  start : Nat
  stop : Nat
deriving DecidableEq, Repr

/-- Build the book records from the match list: each book's text runs
from the start of its marker to the start of the next marker (or the end
of the document), stripped; `number` is the captured group upper-cased. -/
def buildBooks (text : List Char) : List (Nat × Nat × List Char) → List Book
  | [] => []
  | (s, _e, g) :: rest =>
    let endPos : Nat :=
      match rest with
      | [] => text.length
      | (s2, _, _) :: _ => s2
    { number := g.map Char.toUpper
      text := pyStrip (pySlice text s endPos)
      start := s
      stop := endPos } :: buildBooks text rest

/-- `parse_books` from src/setup.py: find all section markers and slice
the text at them.  When no marker is found the match list is empty and
the function returns the empty list (no exception is raised). -/
def parse_books (text : List Char) : List Book :=
  buildBooks text (findIter text)

/-! ### Chunker (`chunk_text`, src/setup.py lines 128-190) -/

/-- A chunk record as built by `chunk_text`: keys `id`, `text`,
`book_number`, `chunk_index`. -/
structure Chunk where
  id : String
  text : List Char
  book_number : List Char
  chunk_index : Nat
deriving DecidableEq, Repr

/-- The chunker's loop state: the accumulating buffer `current_chunk`,
its running token counter `current_tokens`, the emitted `chunks` list and
the global `chunk_id` counter. -/
structure CState where
  cur : List Char
  curTok : Nat
  chunks : List Chunk
  chunkId : Nat

/-- One iteration of the inner paragraph loop of `chunk_text`: strip the
paragraph and skip it if empty; if appending it would push the counter
over the budget and the buffer is non-empty, emit the stripped buffer as
a chunk and re-seed the buffer with the last `overlap * 4` characters of
the old buffer, a blank line, and the paragraph; otherwise append the
paragraph (joined by a blank line) and add its token estimate to the
counter. -/
def procPara (size overlap : Nat) (bookNum : List Char) (s : CState) (para0 : List Char) :
    CState :=
  let para := pyStrip para0
  if para = [] then s
  else
    let paraTok := estimate_tokens para
    if s.curTok + paraTok > size ∧ s.cur ≠ [] then
      let c : Chunk :=
        { id := "chunk_" ++ toString s.chunkId
          text := pyStrip s.cur
          book_number := bookNum
          chunk_index := s.chunkId }
      let overlapChars := overlap * 4
      let newCur := pyTail overlapChars s.cur ++ nl2 ++ para
      { cur := newCur
        curTok := estimate_tokens newCur
        chunks := s.chunks ++ [c]
        chunkId := s.chunkId + 1 }
    else
      let newCur := if s.cur = [] then para else s.cur ++ nl2 ++ para
      { cur := newCur
        curTok := s.curTok + paraTok
        chunks := s.chunks
        chunkId := s.chunkId }

/-- The body of the outer book loop of `chunk_text`: split the book text
into paragraphs, run the paragraph loop with an empty buffer, then flush
any remaining buffer whose stripped form is non-empty. -/
def procBook (size overlap : Nat) (acc : List Chunk × Nat) (book : Book) :
    List Chunk × Nat :=
  let paras := splitPar book.text
  let st := paras.foldl (procPara size overlap book.number)
    { cur := [], curTok := 0, chunks := acc.1, chunkId := acc.2 }
  if pyStrip st.cur ≠ [] then
    (st.chunks ++
      [{ id := "chunk_" ++ toString st.chunkId
         text := pyStrip st.cur
         book_number := book.number
         chunk_index := st.chunkId }],
     st.chunkId + 1)
  else (st.chunks, st.chunkId)

/-- `chunk_text` from src/setup.py, parameterised by the configured
budget and overlap (`config.CHUNK_SIZE`, `config.CHUNK_OVERLAP`). -/
def chunk_text (size overlap : Nat) (books : List Book) : List Chunk :=
  (books.foldl (procBook size overlap) ([], 0)).1

/-! ### Instrumented chunker

The same computation as `chunk_text`, additionally recording for every
emitted chunk the value of the running token counter `current_tokens` at
the moment of emission, and whether the buffer had grown past its
initial content (a lone paragraph, or the overlap seed plus the
paragraph that triggered the previous close) by a further append.
Erasing the instrumentation recovers `chunk_text` exactly
(`chunk_textI_erase`). -/

/-- An emitted chunk together with the counter value at emission and the
grown-past-initial-content flag. -/
structure ChunkI where
  chunk : Chunk
  tokAtEmit : Nat
  grew : Bool
deriving DecidableEq, Repr

/-- Instrumented loop state. -/
structure CStateI where
  cur : List Char
  curTok : Nat
  grew : Bool
  chunks : List ChunkI
  chunkId : Nat

/-- Instrumented `procPara`. -/
def procParaI (size overlap : Nat) (bookNum : List Char) (s : CStateI) (para0 : List Char) :
    CStateI :=
  let para := pyStrip para0
  if para = [] then s
  else
    let paraTok := estimate_tokens para
    if s.curTok + paraTok > size ∧ s.cur ≠ [] then
      let c : Chunk :=
        { id := "chunk_" ++ toString s.chunkId
          text := pyStrip s.cur
          book_number := bookNum
          chunk_index := s.chunkId }
      let overlapChars := overlap * 4
      let newCur := pyTail overlapChars s.cur ++ nl2 ++ para
      { cur := newCur
        curTok := estimate_tokens newCur
        grew := false
        chunks := s.chunks ++ [{ chunk := c, tokAtEmit := s.curTok, grew := s.grew }]
        chunkId := s.chunkId + 1 }
    else
      if s.cur = [] then
        { cur := para, curTok := s.curTok + paraTok, grew := false
          chunks := s.chunks, chunkId := s.chunkId }
      else
        { cur := s.cur ++ nl2 ++ para, curTok := s.curTok + paraTok, grew := true
          chunks := s.chunks, chunkId := s.chunkId }

/-- Instrumented `procBook`. -/
def procBookI (size overlap : Nat) (acc : List ChunkI × Nat) (book : Book) :
    List ChunkI × Nat :=
  let paras := splitPar book.text
  let st := paras.foldl (procParaI size overlap book.number)
    { cur := [], curTok := 0, grew := false, chunks := acc.1, chunkId := acc.2 }
  if pyStrip st.cur ≠ [] then
    (st.chunks ++
      [{ chunk :=
           { id := "chunk_" ++ toString st.chunkId
             text := pyStrip st.cur
             book_number := book.number
             chunk_index := st.chunkId }
         tokAtEmit := st.curTok
         grew := st.grew }],
     st.chunkId + 1)
  else (st.chunks, st.chunkId)

/-- Instrumented `chunk_text`. -/
def chunk_textI (size overlap : Nat) (books : List Book) : List ChunkI :=
  (books.foldl (procBookI size overlap) ([], 0)).1

/-! ### Embedding batcher (`generate_embeddings`, src/setup.py lines 193-231)

The loop `for i in range(0, len(texts), batch_size)` is modelled by a
fuelled recursion consuming `batch_size` items per step; fuel
`texts.length` is always sufficient since each step consumes at least
one item (`max bs 1` is `bs` for the positive batch sizes the code uses,
and keeps the recursion productive at `bs = 0`, where Python's `range`
would reject the step anyway). -/

/-- The externally visible effects of one ingestion embedding run: one
capability call per batch (with its `input_type` purpose string), and
the pacing `time.sleep(1)` executed between batches. -/
inductive EmbedEvent (α : Type) : Type
  | call (batch : List α) (purpose : String)
  | sleep
deriving DecidableEq, Repr

/-- Fuelled body of `generate_embeddings`: take one batch, call the
embedding capability on it with "document" purpose, and sleep exactly
when further items remain (`i + batch_size < len(texts)`). -/
def genGoF (embed : List α → List β) (bs : Nat) : Nat → List α → List β × List (EmbedEvent α)
  | _, [] => ([], [])
  | 0, _ :: _ => ([], [])
  | fuel + 1, t :: ts =>
    let b := max bs 1
    let batch := (t :: ts).take b
    let rest := (t :: ts).drop b
    if rest.isEmpty then (embed batch, [EmbedEvent.call batch "document"])
    else
      let p := genGoF embed bs fuel rest
      (embed batch ++ p.1, EmbedEvent.call batch "document" :: EmbedEvent.sleep :: p.2)

/-- `generate_embeddings` from src/setup.py: batch size 128, returning
the concatenated embeddings together with the trace of external calls
and pacing sleeps. -/
def generate_embeddings (embed : List α → List β) (texts : List α) :
    List β × List (EmbedEvent α) :=
  genGoF embed 128 texts.length texts

/-- The consecutive partition of a list into batches of at most
`max bs 1` items, i.e. the slices `texts[i:i+batch_size]` taken by the
loop of `generate_embeddings`. -/
def chunksOfF (bs : Nat) : Nat → List α → List (List α)
  | _, [] => []
  | 0, _ :: _ => []
  | fuel + 1, t :: ts =>
    let b := max bs 1
    (t :: ts).take b :: chunksOfF bs fuel ((t :: ts).drop b)

/-- Top-level wrapper for `chunksOfF` with sufficient fuel. -/
def chunksOf (bs : Nat) (l : List α) : List (List α) :=
  chunksOfF bs l.length l

/-- The event trace the batching loop produces for a given batch list:
one call per batch with "document" purpose, one sleep between
consecutive batches, no sleep after the last. -/
def batchTrace : List (List α) → List (EmbedEvent α)
  | [] => []
  | [b] => [EmbedEvent.call b "document"]
  | b :: b2 :: bs => EmbedEvent.call b "document" :: EmbedEvent.sleep :: batchTrace (b2 :: bs)

/-- Fuelled fallible variant of the embedding loop: the capability call
on a batch may fail, and the first failure aborts the whole run
(the Python exception propagates out of `generate_embeddings`). -/
def genFF (embed : List α → Except ε (List β)) (bs : Nat) :
    Nat → List α → Except ε (List β)
  | _, [] => Except.ok []
  | 0, _ :: _ => Except.ok []
  | fuel + 1, t :: ts =>
    let b := max bs 1
    match embed ((t :: ts).take b) with
    | Except.error e => Except.error e
    | Except.ok vs =>
      match genFF embed bs fuel ((t :: ts).drop b) with
      | Except.error e => Except.error e
      | Except.ok vs2 => Except.ok (vs ++ vs2)

/-- `generate_embeddings` viewed through its failure behaviour: batch
size 128, first failing batch call aborts the run. -/
def generate_embeddings_f (embed : List α → Except ε (List β)) (texts : List α) :
    Except ε (List β) :=
  genFF embed 128 texts.length texts

/-- Boolean success test for `Except`. -/
def exceptOk : Except ε α → Bool
  | Except.ok _ => true
  | Except.error _ => false

/-! ### Index builder (`create_vector_database`, src/setup.py lines 234-287)

The vector store is modelled as `Option (List (VEntry β))`: `none` is
"no collection", `some col` is the collection's entries.  The guarded
`delete_collection` (missing collection absorbed) followed by
`create_collection` replaces whatever was there with an empty
collection, which the batched `collection.add` loop then fills. -/

/-- One persisted `(id, embedding, document, metadata)` tuple; the
metadata carries `book_number` and `chunk_index`. -/
structure VEntry (β : Type) : Type where
  eid : String
  embedding : β
  document : List Char
  book_number : List Char
  chunk_index : Nat
deriving DecidableEq, Repr

/-- Fuelled model of the `collection.add` loop: insert entries in
batches of at most `max bs 1` (the code uses 100), appending each slice
to the collection. -/
def addBatchedF (bs : Nat) : Nat → List (VEntry β) → List (VEntry β) → List (VEntry β)
  | _, [], col => col
  | 0, _ :: _, col => col
  | fuel + 1, e :: es, col =>
    let b := max bs 1
    addBatchedF bs fuel ((e :: es).drop b) (col ++ (e :: es).take b)

/-- `create_vector_database` from src/setup.py: drop any existing
collection (a missing one is a no-op), create a fresh empty one, and add
the zipped `(id, embedding, document, metadata)` tuples in batches of
100.  The prior store contents are discarded unconditionally. -/
def create_vector_database (chunks : List Chunk) (embeddings : List β)
    (_store : Option (List (VEntry β))) : Option (List (VEntry β)) :=
  let entries := (chunks.zip embeddings).map fun p =>
    { eid := p.1.id
      embedding := p.2
      document := p.1.text
      book_number := p.1.book_number
      chunk_index := p.1.chunk_index }
  some (addBatchedF 100 entries.length entries [])

/-- The ingestion tail of `main` (src/setup.py lines 320-329): chunk the
parsed books, generate all embeddings, and only on success replace the
vector store; an embedding failure propagates and the store is left as
it was. -/
def mainIngest (embed : List (List Char) → Except ε (List β)) (books : List Book)
    (store : Option (List (VEntry β))) : Except ε Unit × Option (List (VEntry β)) :=
  let chunks := chunk_text CHUNK_SIZE CHUNK_OVERLAP books
  match generate_embeddings_f embed (chunks.map Chunk.text) with
  | Except.error e => (Except.error e, store)
  | Except.ok embs => (Except.ok (), create_vector_database chunks embs store)

/-! ### Query engine (src/rag_engine.py)

Query-time strings stay `String`s (validation uses the same
`pyStrip` model of Python `str.strip()` on their character data);
distances and relevance scores are rationals. -/

/-- Python `question.strip()` on a Lean `String`. -/
def pyStripS (s : String) : String := String.mk (pyStrip s.data)

/-- Retrieval-time metadata of a stored chunk. -/
structure RMeta where
  book_number : String
  chunk_index : Nat
deriving DecidableEq, Repr

/-- The single-query slice of a ChromaDB query result: the code reads
`results['documents'][0]`, `results['metadatas'][0]`,
`results['distances'][0]`; those three inner parallel lists are
modelled directly. -/
structure RResults where
  documents : List String
  metadatas : List RMeta
  distances : List ℚ
deriving DecidableEq, Repr

/-- One formatted source dictionary produced by `_format_sources`. -/
structure Source where
  book : String
  text : String
  relevance_score : ℚ
deriving DecidableEq, Repr

/-- Python's three-list `zip`: truncates to the shortest input. -/
def zip3 : List α → List β → List γ → List (α × β × γ)
  | a :: as2, b :: bs, c :: cs => (a, b, c) :: zip3 as2 bs cs
  | _, _, _ => []

/-- Rounding to two decimal places, Python `round(x, 2)` (modelled with
round-half-up at exact ties; the claims do not depend on tie behaviour). -/
def round2 (x : ℚ) : ℚ := (round (100 * x) : ℚ) / 100

/-- `_format_sources` from src/rag_engine.py lines 160-192: per match,
`relevance_score = max(0, 1 - distance / 2)` rounded to two decimals
(note: no upper clamp in the code), a display text truncated to 300
characters with a `"..."` marker, and a `"Book <n>"` label. -/
def format_sources (r : RResults) : List Source :=
  (zip3 r.documents r.metadatas r.distances).map fun t =>
    let doc := t.1
    let meta := t.2.1
    let distance := t.2.2
    let relevance_score := max 0 (1 - distance / 2)
    let display_text := if doc.length > 300 then doc.take 300 ++ "..." else doc
    { book := "Book " ++ meta.book_number
      text := display_text
      relevance_score := round2 relevance_score }

/-- `_build_context` from src/rag_engine.py: render each match as a
bracketed book citation followed by its text, joined by `"\n---\n"`
(the loop zips documents, metadatas and distances). -/
def build_context (r : RResults) : String :=
  String.intercalate "\n---\n"
    ((zip3 r.documents r.metadatas r.distances).map fun t =>
      "[Book " ++ t.2.1.book_number ++ "]\n" ++ t.1 ++ "\n")

/-- `_build_prompt` from src/rag_engine.py. -/
def build_prompt (context question : String) : String :=
  "You are a helpful assistant answering questions about Homer\x27s The Odyssey.\n\nContext from The Odyssey:\n"
    ++ context
    ++ "\n\nQuestion: " ++ question
    ++ "\n\nInstructions:\n- Answer the question based on the provided context\n- Cite specific books when referencing events or characters\n- If the context doesn\x27t contain enough information, say so\n- Be concise but thorough\n- Use natural language, not bullet points\n\nAnswer:"

/-- The three external capabilities `query` can reach, in the order the
code invokes them. -/
inductive ExtCall : Type
  | embed
  | vstore
  | generate
deriving DecidableEq, Repr

/-- The external capabilities behind the query path: the query-purpose
embedding call, the vector-store nearest-neighbour query, and the
generation call; each may fail with a message. -/
structure RagEnv where
  embedQuery : String → Except String (List ℚ)
  vquery : List ℚ → Except String RResults
  generate : String → Except String String

/-- A `query` result: the answer and the formatted sources. -/
structure QueryAnswer where
  answer : String
  sources : List Source
deriving DecidableEq, Repr

/-- `OdysseyRAG.query` from src/rag_engine.py lines 194-241, returning
both the result and the trace of external calls actually issued.  An
empty or whitespace-only question is rejected with `ValueError`
("Question cannot be empty") before any external call; afterwards the
trimmed question is embedded, the store queried, the prompt built and
sent to generation, and failures are wrapped as `RuntimeError`
messages, re-wrapped by the outer handler. -/
def query (env : RagEnv) (question : String) :
    Except String QueryAnswer × List ExtCall :=
  if question = "" ∨ pyStripS question = "" then
    (Except.error "Question cannot be empty", [])
  else
    let q := pyStripS question
    match env.embedQuery q with
    | Except.error e =>
      (Except.error ("Query processing failed: Failed to generate query embedding: " ++ e),
       [ExtCall.embed])
    | Except.ok emb =>
      match env.vquery emb with
      | Except.error e =>
        (Except.error ("Query processing failed: Failed to retrieve chunks: " ++ e),
         [ExtCall.embed, ExtCall.vstore])
      | Except.ok results =>
        let context := build_context results
        let prompt := build_prompt context q
        match env.generate prompt with
        | Except.error e =>
          (Except.error ("Query processing failed: Failed to call Claude API: " ++ e),
           [ExtCall.embed, ExtCall.vstore, ExtCall.generate])
        | Except.ok answer =>
          (Except.ok { answer := answer, sources := format_sources results },
           [ExtCall.embed, ExtCall.vstore, ExtCall.generate])

/-! ### Concrete fixtures used by witnesses and counterexamples -/

/-- A one-paragraph section labelled I. -/
def bkI : Book := { number := ['I'], text := "abc".data, start := 0, stop := 3 }

/-- A one-paragraph section labelled II. -/
def bkII : Book := { number := "II".data, text := "def".data, start := 3, stop := 6 }

/-- Nine three-character paragraphs separated by blank lines: 43
characters in total, estimated at 10 tokens, while each paragraph alone
estimates to 0 tokens. -/
def tinyParas : List Char := (String.intercalate "\n\n" (List.replicate 9 "abc")).data

/-- A section made of the nine tiny paragraphs. -/
def bkTiny : Book := { number := ['I'], text := tinyParas, start := 0, stop := 43 }

/-- A section that is a single 8-character paragraph (2 estimated
tokens, twice a budget of 1). -/
def bkBig : Book := { number := ['I'], text := "abcdabcd".data, start := 0, stop := 8 }

/-- A query environment whose capabilities always succeed trivially. -/
def env0 : RagEnv :=
  { embedQuery := fun _ => Except.ok []
    vquery := fun _ => Except.ok { documents := [], metadatas := [], distances := [] }
    generate := fun _ => Except.ok "" }

/-- An embedding capability that fails on every batch. -/
def embedFail : List (List Char) → Except String (List Unit) :=
  fun _ => Except.error "quota exceeded"

/-- The first instrumented chunk of the tiny-paragraph run (with a
default fallback for the out-of-range case). -/
def chunkITiny : ChunkI :=
  (chunk_textI 8 1 [bkTiny]).getD 0
    { chunk := { id := "", text := [], book_number := [], chunk_index := 0 },
      tokAtEmit := 0, grew := false }

/-- A single retrieval result at distance -1 (closer than identical,
as some metrics never produce, but nothing in the code rules out). -/
def rNeg : RResults :=
  { documents := ["x"], metadatas := [{ book_number := "I", chunk_index := 0 }],
    distances := [-1] }

/-- A single retrieval result at distance 1. -/
def rPos : RResults :=
  { documents := ["a"], metadatas := [{ book_number := "I", chunk_index := 0 }],
    distances := [1] }

/-- The source `format_sources` produces for `rPos`. -/
def srcPos : Source :=
  { book := "Book I", text := "a", relevance_score := round2 (max 0 (1 - (1 : ℚ) / 2)) }

/-- Metadata fixture for book I. -/
def mI : RMeta := { book_number := "I", chunk_index := 0 }

/-- Metadata fixture for book II. -/
def mII : RMeta := { book_number := "II", chunk_index := 1 }

/-- The chunk `chunk_text` emits for the fixture section `bkI`. -/
def chunkAbc : Chunk :=
  { id := "chunk_0", text := "abc".data, book_number := ['I'], chunk_index := 0 }

/-- A section whose paragraphs are all empty or whitespace-only. -/
def bkWS : Book := { number := "II".data, text := "  \n\n \n ".data, start := 3, stop := 10 }

/-! ### Invariant predicates used by the proofs -/

/-- The text contains at least one non-whitespace character. -/
def hasNonWS (l : List Char) : Prop := ∃ c ∈ l, pyIsSpace c = false

/-- The chunker's bookkeeping invariant: the global counter equals the
number of chunks emitted so far, and the chunk at position `i` carries
`chunk_index = i` and id `chunk_<i>`. -/
def good4 (l : List Chunk) (n : Nat) : Prop :=
  n = l.length ∧
    ∀ i (hi : i < l.length), l[i].chunk_index = i ∧ l[i].id = "chunk_" ++ toString i

/-- Every emitted chunk has non-empty text fixed by stripping. -/
def goodClean (l : List Chunk) : Prop :=
  ∀ c ∈ l, c.text ≠ [] ∧ pyStrip c.text = c.text

/-- The cleanliness loop invariant: the buffer is empty or contains a
non-whitespace character, and all emitted chunks are clean. -/
def invClean (s : CState) : Prop :=
  (s.cur = [] ∨ hasNonWS s.cur) ∧ goodClean s.chunks

/-- Forgetting the instrumentation of one state. -/
def eraseStI (s : CStateI) : CState :=
  { cur := s.cur, curTok := s.curTok, chunks := s.chunks.map ChunkI.chunk,
    chunkId := s.chunkId }

/-- The running-counter invariant carried by the instrumented state:
the counter is within the budget unless the buffer is still its initial
content, and the same holds of every emitted record. -/
def invTok (size : Nat) (s : CStateI) : Prop :=
  (s.curTok ≤ size ∨ s.grew = false) ∧
    ∀ r ∈ s.chunks, r.tokAtEmit ≤ size ∨ r.grew = false

/-! ### Generic helper lemmas -/

/-- A fold preserves any invariant its step function preserves. -/
theorem foldl_inv {σ χ : Type} {P : σ → Prop} (f : σ → χ → σ)
    (hf : ∀ s a, P s → P (f s a)) :
    ∀ (l : List χ) (s : σ), P s → P (l.foldl f s) := by
  intro l
  induction l with
  | nil => intro s hs; exact hs
  | cons a t ih => intro s hs; exact ih (f s a) (hf s a hs)

/-- A fold over elements the step function ignores is the identity. -/
theorem foldl_fixed {σ χ : Type} (f : σ → χ → σ) :
    ∀ (l : List χ), (∀ a ∈ l, ∀ s, f s a = s) → ∀ s, l.foldl f s = s := by
  intro l
  induction l with
  | nil => intro _ s; rfl
  | cons a t ih =>
    intro h s
    simp only [List.foldl_cons, h a (by simp)]
    exact ih (fun b hb s2 => h b (by simp [hb]) s2) s

/-- A fold commutes with a state abstraction that its step respects. -/
theorem foldl_commute {σ τ χ : Type} (f : τ → χ → τ) (g : σ → τ) (f0 : σ → χ → σ)
    (hfg : ∀ s a, f (g s) a = g (f0 s a)) :
    ∀ (l : List χ) (s : σ), l.foldl f (g s) = g (l.foldl f0 s) := by
  intro l
  induction l with
  | nil => intro s; rfl
  | cons a t ih => intro s; simp only [List.foldl_cons, hfg s a, ih (f0 s a)]

/-- The head surviving a `dropWhile` falsifies the predicate. -/
theorem dropWhile_head_false {α : Type} (p : α → Bool) :
    ∀ (l : List α) (c : α) (cs : List α), l.dropWhile p = c :: cs → p c = false := by
  intro l
  induction l with
  | nil => intro c cs h; simp [List.dropWhile] at h
  | cons a t ih =>
    intro c cs h
    rw [List.dropWhile_cons] at h
    by_cases hp : p a = true
    · exact ih c cs (by rwa [if_pos hp] at h)
    · rw [if_neg hp] at h
      cases h
      exact Bool.not_eq_true _ |>.mp hp

/-- An element falsifying the predicate survives `dropWhile`. -/
theorem mem_dropWhile_of_neg {α : Type} (p : α → Bool) :
    ∀ (l : List α) (c : α), c ∈ l → p c = false → c ∈ l.dropWhile p := by
  intro l
  induction l with
  | nil => intro c hc; cases hc
  | cons a t ih =>
    intro c hc hp
    rw [List.dropWhile_cons]
    by_cases ha : p a = true
    · rw [if_pos ha]
      rcases List.mem_cons.mp hc with rfl | hmem
      · rw [hp] at ha; cases ha
      · exact ih c hmem hp
    · rw [if_neg ha]; exact hc

/-- `dropWhile` is idempotent. -/
theorem dropWhile_dropWhile {α : Type} (p : α → Bool) (l : List α) :
    (l.dropWhile p).dropWhile p = l.dropWhile p := by
  cases h : l.dropWhile p with
  | nil => rfl
  | cons c cs =>
    rw [List.dropWhile_cons, if_neg]
    rw [dropWhile_head_false p l c cs h]
    simp

/-! ### Lemmas about `pyStrip` -/

/-- A text with a non-whitespace character strips to something non-empty. -/
theorem pyStrip_ne_nil_of_hasNonWS {l : List Char} (h : hasNonWS l) :
    pyStrip l ≠ [] := by
  obtain ⟨c, hc, hp⟩ := h
  have h1 : c ∈ l.dropWhile pyIsSpace := mem_dropWhile_of_neg pyIsSpace l c hc hp
  have h2 : c ∈ (l.dropWhile pyIsSpace).reverse := List.mem_reverse.mpr h1
  have h3 : c ∈ (l.dropWhile pyIsSpace).reverse.dropWhile pyIsSpace :=
    mem_dropWhile_of_neg pyIsSpace _ c h2 hp
  have h4 : c ∈ pyStrip l := List.mem_reverse.mpr h3
  exact List.ne_nil_of_mem h4

/-- A non-empty strip result contains a non-whitespace character. -/
theorem hasNonWS_of_pyStrip_ne_nil {l : List Char} (h : pyStrip l ≠ []) :
    hasNonWS (pyStrip l) := by
  unfold pyStrip at h ⊢
  cases hY : (l.dropWhile pyIsSpace).reverse.dropWhile pyIsSpace with
  | nil => rw [hY] at h; simp at h
  | cons c cs =>
    refine ⟨c, ?_, dropWhile_head_false pyIsSpace _ c cs hY⟩
    exact List.mem_reverse.mpr (by simp)

/-- If the strip result is non-empty, its first character falsifies
`pyIsSpace` (it is the first character kept by the leading
`dropWhile`). -/
theorem pyStrip_head_false {l : List Char} {c : Char} {cs : List Char}
    (h : pyStrip l = c :: cs) : pyIsSpace c = false := by
  have hX : l.dropWhile pyIsSpace =
      pyStrip l ++ ((l.dropWhile pyIsSpace).reverse.takeWhile pyIsSpace).reverse := by
    unfold pyStrip
    have := List.takeWhile_append_dropWhile (p := pyIsSpace)
      (l := (l.dropWhile pyIsSpace).reverse)
    calc l.dropWhile pyIsSpace
        = (l.dropWhile pyIsSpace).reverse.reverse := by rw [List.reverse_reverse]
      _ = ((l.dropWhile pyIsSpace).reverse.takeWhile pyIsSpace ++
            (l.dropWhile pyIsSpace).reverse.dropWhile pyIsSpace).reverse := by rw [this]
      _ = _ := by rw [List.reverse_append]
  rw [h] at hX
  exact dropWhile_head_false pyIsSpace l c (cs ++ _) (by simpa using hX)

/-- `pyStrip` is idempotent. -/
theorem pyStrip_idem (l : List Char) : pyStrip (pyStrip l) = pyStrip l := by
  have hlead : (pyStrip l).dropWhile pyIsSpace = pyStrip l := by
    cases h : pyStrip l with
    | nil => simp
    | cons c cs =>
      rw [List.dropWhile_cons, if_neg]
      rw [pyStrip_head_false h]
      simp
  have hstep : pyStrip (pyStrip l) =
      (((pyStrip l).dropWhile pyIsSpace).reverse.dropWhile pyIsSpace).reverse := rfl
  have hrev : (pyStrip l).reverse = (l.dropWhile pyIsSpace).reverse.dropWhile pyIsSpace := by
    unfold pyStrip; rw [List.reverse_reverse]
  rw [hstep, hlead, hrev, dropWhile_dropWhile, ← hrev, List.reverse_reverse]

/-! ### Lemmas about `round2` -/

/-- `round` is monotone on rationals. -/
theorem round_mono_rat {x y : ℚ} (h : x ≤ y) : round x ≤ round y := by
  rw [round_eq, round_eq]
  exact Int.floor_mono (by linarith)

/-- `round2` is monotone. -/
theorem round2_mono {x y : ℚ} (h : x ≤ y) : round2 x ≤ round2 y := by
  unfold round2
  have h1 : round (100 * x) ≤ round (100 * y) := round_mono_rat (by linarith)
  have h2 : ((round (100 * x) : ℤ) : ℚ) ≤ ((round (100 * y) : ℤ) : ℚ) := by
    exact_mod_cast h1
  exact (div_le_div_iff_of_pos_right (by norm_num)).mpr h2

/-- `round2` preserves non-negativity. -/
theorem round2_nonneg {x : ℚ} (h : 0 ≤ x) : 0 ≤ round2 x := by
  unfold round2
  have h1 : (0 : ℤ) ≤ round (100 * x) := by
    have := round_mono_rat (x := 0) (y := 100 * x) (by linarith)
    simpa [round_zero] using this
  apply div_nonneg _ (by norm_num)
  exact_mod_cast h1

/-- `round2` of a value at most one is at most one. -/
theorem round2_le_one {x : ℚ} (h : x ≤ 1) : round2 x ≤ 1 := by
  unfold round2
  have h1 : round (100 * x) ≤ round ((100 : ℚ)) := round_mono_rat (by linarith)
  have h2 : round ((100 : ℚ)) = 100 := by
    rw [show ((100 : ℚ)) = ((100 : ℤ) : ℚ) by norm_num, round_intCast]
  rw [h2] at h1
  have h3 : ((round (100 * x) : ℤ) : ℚ) ≤ 100 := by exact_mod_cast h1
  linarith

/-! ### Global chunk-index invariant (for the id/index claims) -/

/-- Emitting one chunk with the current counter preserves the
bookkeeping invariant. -/
theorem good4_append {l : List Chunk} {n : Nat} (t bn : List Char) (h : good4 l n) :
    good4
      (l ++ [{ id := "chunk_" ++ toString n, text := t, book_number := bn, chunk_index := n }])
      (n + 1) := by
  obtain ⟨hlen, hidx⟩ := h
  subst hlen
  constructor
  · simp
  · intro i hi
    simp only [List.length_append, List.length_cons, List.length_nil] at hi
    rcases Nat.lt_or_ge i l.length with hlt | hge
    · rw [List.getElem_append_left hlt]
      exact hidx i hlt
    · have hie : i = l.length := by omega
      subst hie
      rw [List.getElem_concat_length l _ _ rfl]
      exact ⟨rfl, rfl⟩

/-- `procPara` preserves the bookkeeping invariant. -/
theorem procPara_good4 (size ov : Nat) (bn : List Char) (s : CState) (p : List Char)
    (h : good4 s.chunks s.chunkId) :
    good4 (procPara size ov bn s p).chunks (procPara size ov bn s p).chunkId := by
  by_cases h1 : pyStrip p = []
  · simpa [procPara, h1] using h
  · by_cases h2 : s.curTok + estimate_tokens (pyStrip p) > size ∧ s.cur ≠ []
    · simp only [procPara, if_neg h1, if_pos h2]
      exact good4_append _ _ h
    · simpa [procPara, if_neg h1, if_neg h2] using h

/-- `procBook` preserves the bookkeeping invariant. -/
theorem procBook_good4 (size ov : Nat) (acc : List Chunk × Nat) (b : Book)
    (h : good4 acc.1 acc.2) :
    good4 (procBook size ov acc b).1 (procBook size ov acc b).2 := by
  unfold procBook
  have hfold := foldl_inv (P := fun s : CState => good4 s.chunks s.chunkId)
    (procPara size ov b.number) (fun s a hs => procPara_good4 size ov b.number s a hs)
    (splitPar b.text) { cur := [], curTok := 0, chunks := acc.1, chunkId := acc.2 } h
  by_cases hc : pyStrip (List.foldl (procPara size ov b.number)
      { cur := [], curTok := 0, chunks := acc.1, chunkId := acc.2 } (splitPar b.text)).cur ≠ []
  · simp only [procBook, if_pos hc]
    exact good4_append _ _ hfold
  · simp only [procBook, if_neg hc]
    exact hfold

/-- The bookkeeping invariant holds of the full chunker output. -/
theorem chunk_text_good4 (size ov : Nat) (books : List Book) :
    good4 (chunk_text size ov books)
      ((books.foldl (procBook size ov) ([], 0)).2) := by
  unfold chunk_text
  exact foldl_inv (P := fun acc : List Chunk × Nat => good4 acc.1 acc.2)
    (procBook size ov) (fun s a hs => procBook_good4 size ov s a hs)
    books ([], 0) ⟨rfl, fun i hi => absurd hi (by simp)⟩

/-! ### Claim C2 -/

/-- C2 counterexample: on a text containing zero section-marker
matches, `parse_books` does not fail — it returns the empty list of
sections, the very outcome the claim says is replaced by a
`StructureError`. -/
theorem parse_books_no_match_counterexample :
    findIter "hello".data = [] ∧ parse_books "hello".data = [] := by
  constructor
  · decide
  · decide

/-- C2 (amended): for every input text in which zero section-marker
matches are found, `parse_books` returns the empty list of sections;
no `StructureError` (or any other exception) is raised. -/
theorem parse_books_empty_of_no_match (text : List Char) (h : findIter text = []) :
    parse_books text = [] := by
  unfold parse_books
  rw [h]
  rfl

/-- Witness for the amended C2 theorem at a concrete marker-free text. -/
theorem parse_books_empty_of_no_match_witness :
    findIter "hello world".data = [] ∧ parse_books "hello world".data = [] :=
  ⟨by decide, parse_books_empty_of_no_match "hello world".data (by decide)⟩

/-! ### Claim C4 -/

/-- C4 counterexample: with two one-paragraph sections, the single
chunk emitted from section II is that section's first chunk, yet its
`chunk_index` is 1 rather than 0 — the index is not a per-section
position starting at 0. -/
theorem chunk_index_counterexample :
    (chunk_text 8 1 [bkI, bkII]).map (fun c => (c.chunk_index, c.book_number)) =
      [(0, ['I']), (1, "II".data)] ∧
    ((chunk_text 8 1 [bkI, bkII]).filter
        (fun c => c.book_number = "II".data)).map Chunk.chunk_index = [1] := by
  constructor
  · decide
  · decide

/-- C4 (amended): `chunk_index` equals the chunk's global emission
position across the whole document (so indices are `0, 1, 2, ...` over
the full output, not reset per section), and the chunk at global
position `i` carries the id `chunk_<i>` — hence ids are globally
unique. -/
theorem chunk_index_globally_sequential (size ov : Nat) (books : List Book) :
    ((chunk_text size ov books).map Chunk.chunk_index =
      List.range (chunk_text size ov books).length) ∧
    ∀ i (hi : i < (chunk_text size ov books).length),
      (chunk_text size ov books)[i].id = "chunk_" ++ toString i := by
  obtain ⟨-, hidx⟩ := chunk_text_good4 size ov books
  constructor
  · refine List.ext_getElem (by simp) ?_
    intro n h1 h2
    simp only [List.getElem_map, List.getElem_range]
    exact (hidx n (by simpa using h1)).1
  · intro i hi
    exact (hidx i hi).2

/-- Witness for the amended C4 theorem on the two-section fixture. -/
theorem chunk_index_globally_sequential_witness :
    (1 < (chunk_text 8 1 [bkI, bkII]).length) ∧
    ((chunk_text 8 1 [bkI, bkII]).map Chunk.chunk_index =
      List.range (chunk_text 8 1 [bkI, bkII]).length) ∧
    (chunk_text 8 1 [bkI, bkII])[1].id = "chunk_" ++ toString 1 :=
  ⟨by decide, (chunk_index_globally_sequential 8 1 [bkI, bkII]).1,
    (chunk_index_globally_sequential 8 1 [bkI, bkII]).2 1 (by decide)⟩

/-! ### Claim C5 -/

/-- C5: a question that is empty or strips to the empty string is
rejected with the `ValueError` message before any external call: the
result is the validation error and the trace of issued external calls
is empty (no embedding, vector-store or generation call). -/
theorem query_rejects_empty_before_calls (env : RagEnv) (question : String)
    (h : pyStripS question = "") :
    query env question = (Except.error "Question cannot be empty", []) := by
  unfold query
  rw [if_pos (Or.inr h)]

/-- Witness for C5 at the whitespace-only question. -/
theorem query_rejects_empty_before_calls_witness :
    pyStripS "   " = "" ∧
    query env0 "   " = (Except.error "Question cannot be empty", []) :=
  ⟨by decide, query_rejects_empty_before_calls env0 "   " (by decide)⟩

/-! ### Claim C6 -/

/-- C6: a section consisting of a single paragraph whose estimated
token count exceeds the budget is emitted as exactly one chunk holding
the whole (stripped) paragraph — it is never split mid-paragraph and
never yields two chunks. -/
theorem single_oversized_paragraph_one_chunk (size ov : Nat) (b : Book)
    (h1 : splitPar b.text = [b.text]) (h2 : pyStrip b.text ≠ [])
    (_h3 : size < estimate_tokens (pyStrip b.text)) :
    chunk_text size ov [b] =
      [{ id := "chunk_" ++ toString 0, text := pyStrip b.text,
         book_number := b.number, chunk_index := 0 }] := by
  have hpp : procPara size ov b.number
      { cur := [], curTok := 0, chunks := [], chunkId := 0 } b.text =
      { cur := pyStrip b.text, curTok := 0 + estimate_tokens (pyStrip b.text),
        chunks := [], chunkId := 0 } := by
    simp only [procPara, if_neg h2]
    rw [if_neg (by simp)]
    simp
  unfold chunk_text
  simp only [List.foldl_cons, List.foldl_nil]
  simp only [procBook, h1, List.foldl_cons, List.foldl_nil, hpp]
  rw [if_pos (by simpa [pyStrip_idem] using h2)]
  simp [pyStrip_idem]

/-- Witness for C6 on a single 8-character paragraph (2 estimated
tokens) against a budget of 1 token. -/
theorem single_oversized_paragraph_one_chunk_witness :
    splitPar bkBig.text = [bkBig.text] ∧ pyStrip bkBig.text ≠ [] ∧
    1 < estimate_tokens (pyStrip bkBig.text) ∧
    chunk_text 1 0 [bkBig] =
      [{ id := "chunk_" ++ toString 0, text := pyStrip bkBig.text,
         book_number := bkBig.number, chunk_index := 0 }] :=
  ⟨by decide, by decide, by decide,
    single_oversized_paragraph_one_chunk 1 0 bkBig (by decide) (by decide) (by decide)⟩

/-! ### Claim C3 -/

/-- C3 counterexample: at distance -1 the code computes
`max(0, 1 - (-1)/2) = 3/2` and rounding leaves `3/2`, which exceeds 1 —
the score is not clamped above, contradicting
`clamp(1 - d/2, 0, 1)` and the claim that the score is in `[0, 1]` for
distances below 0. -/
theorem format_sources_above_one_counterexample :
    (format_sources rNeg).map Source.relevance_score = [3 / 2] ∧
    ¬ ((3 : ℚ) / 2 ≤ 1) := by
  constructor
  · have h1 : (format_sources rNeg).map Source.relevance_score =
        [round2 (max 0 (1 - (-1 : ℚ) / 2))] := rfl
    rw [h1]
    have h2 : max 0 (1 - (-1 : ℚ) / 2) = 3 / 2 := by
      rw [max_eq_right] <;> norm_num
    rw [h2]
    have h3 : round2 ((3 : ℚ) / 2) = 3 / 2 := by
      unfold round2
      rw [show (100 : ℚ) * (3 / 2) = ((150 : ℤ) : ℚ) by norm_num, round_intCast]
      norm_num
    rw [h3]
  · norm_num

/-- C3 (amended): the code computes
`relevance_score = max(0, 1 - d/2)` rounded to two decimals — clamped
below but not above.  The score is therefore always ≥ 0, and it is ≤ 1
whenever the distance is non-negative; for negative distances it can
exceed 1. -/
theorem format_sources_amended :
    (∀ (r : RResults), ∀ s ∈ format_sources r, 0 ≤ s.relevance_score) ∧
    (∀ (doc : String) (meta : RMeta) (d : ℚ), 0 ≤ d →
      ∀ s ∈ format_sources { documents := [doc], metadatas := [meta], distances := [d] },
        s.relevance_score ≤ 1) := by
  constructor
  · intro r s hs
    obtain ⟨t, _ht, rfl⟩ := List.mem_map.mp hs
    exact round2_nonneg (le_max_left _ _)
  · intro doc meta d hd s hs
    rcases List.mem_singleton.mp hs with rfl
    apply round2_le_one
    apply max_le (by norm_num)
    linarith

/-- Witness for the amended C3 theorem at distance 1. -/
theorem format_sources_amended_witness :
    (0 : ℚ) ≤ 1 ∧ 0 ≤ srcPos.relevance_score ∧ srcPos.relevance_score ≤ 1 :=
  ⟨by norm_num,
    format_sources_amended.1 rPos srcPos
      (by rw [show format_sources rPos = [srcPos] from rfl]; exact List.mem_singleton.mpr rfl),
    format_sources_amended.2 "a" mI 1 (by norm_num) srcPos
      (by exact List.mem_singleton.mpr rfl)⟩

/-! ### Claim C9 -/

/-- C9: the distance-to-relevance mapping applied by `format_sources`
is monotonically non-increasing in the distance: for two matches with
`distance(a) < distance(b)` the formatted `relevance_score(a)` is at
least `relevance_score(b)`. -/
theorem format_sources_monotone (doc1 doc2 : String) (m1 m2 : RMeta) (d1 d2 : ℚ)
    (h : d1 < d2) :
    (format_sources
        { documents := [doc1, doc2], metadatas := [m1, m2], distances := [d1, d2] }).map
      Source.relevance_score =
      [round2 (max 0 (1 - d1 / 2)), round2 (max 0 (1 - d2 / 2))] ∧
    round2 (max 0 (1 - d2 / 2)) ≤ round2 (max 0 (1 - d1 / 2)) := by
  constructor
  · rfl
  · apply round2_mono
    apply max_le_max le_rfl
    linarith

/-- Witness for C9 at distances 0 and 1. -/
theorem format_sources_monotone_witness :
    ((0 : ℚ) < 1) ∧
    (format_sources
        { documents := ["a", "b"], metadatas := [mI, mII], distances := [0, 1] }).map
      Source.relevance_score =
      [round2 (max 0 (1 - (0 : ℚ) / 2)), round2 (max 0 (1 - (1 : ℚ) / 2))] ∧
    round2 (max 0 (1 - (1 : ℚ) / 2)) ≤ round2 (max 0 (1 - (0 : ℚ) / 2)) :=
  ⟨by norm_num,
    (format_sources_monotone "a" "b" mI mII 0 1 (by norm_num)).1,
    (format_sources_monotone "a" "b" mI mII 0 1 (by norm_num)).2⟩

/-! ### Claim C10 -/

/-- Appending a chunk whose text is a non-trivial strip keeps the
emitted chunks clean. -/
theorem goodClean_append {l : List Chunk} (h : goodClean l) (idStr : String)
    (bn : List Char) (n : Nat) {t : List Char} (ht : pyStrip t ≠ []) :
    goodClean (l ++ [{ id := idStr, text := pyStrip t, book_number := bn, chunk_index := n }]) := by
  intro c hc
  rcases List.mem_append.mp hc with h1 | h1
  · exact h c h1
  · rcases List.mem_singleton.mp h1 with rfl
    exact ⟨ht, by simp [pyStrip_idem]⟩

/-- `procPara` preserves the cleanliness invariant. -/
theorem procPara_invClean (size ov : Nat) (bn : List Char) (s : CState) (p : List Char)
    (h : invClean s) : invClean (procPara size ov bn s p) := by
  obtain ⟨hcur, hchunks⟩ := h
  by_cases h1 : pyStrip p = []
  · simpa [procPara, h1] using ⟨hcur, hchunks⟩
  · have hpara : hasNonWS (pyStrip p) := hasNonWS_of_pyStrip_ne_nil h1
    by_cases h2 : s.curTok + estimate_tokens (pyStrip p) > size ∧ s.cur ≠ []
    · simp only [procPara, if_neg h1, if_pos h2]
      constructor
      · right
        obtain ⟨c, hc, hcp⟩ := hpara
        exact ⟨c, by simp [hc], hcp⟩
      · have hne : pyStrip s.cur ≠ [] := by
          rcases hcur with hnil | hnw
          · exact absurd hnil h2.2
          · exact pyStrip_ne_nil_of_hasNonWS hnw
        exact goodClean_append hchunks _ _ _ hne
    · simp only [procPara, if_neg h1, if_neg h2]
      refine ⟨?_, hchunks⟩
      by_cases h3 : s.cur = []
      · rw [if_pos h3]
        exact Or.inr hpara
      · rw [if_neg h3]
        right
        rcases hcur with hnil | hnw
        · exact absurd hnil h3
        · obtain ⟨c, hc, hcp⟩ := hnw
          exact ⟨c, by simp [hc], hcp⟩

/-- `procBook` preserves cleanliness of the emitted chunks. -/
theorem procBook_goodClean (size ov : Nat) (acc : List Chunk × Nat) (b : Book)
    (h : goodClean acc.1) : goodClean (procBook size ov acc b).1 := by
  have hfold := foldl_inv (P := invClean) (procPara size ov b.number)
    (fun s a hs => procPara_invClean size ov b.number s a hs)
    (splitPar b.text) { cur := [], curTok := 0, chunks := acc.1, chunkId := acc.2 }
    ⟨Or.inl rfl, h⟩
  by_cases hc : pyStrip (List.foldl (procPara size ov b.number)
      { cur := [], curTok := 0, chunks := acc.1, chunkId := acc.2 } (splitPar b.text)).cur ≠ []
  · simp only [procBook, if_pos hc]
    exact goodClean_append hfold.2 _ _ _ hc
  · simp only [procBook, if_neg hc]
    exact hfold.2

/-- C10: every chunk emitted by the chunker has non-empty text with no
leading or trailing whitespace (its text equals its own stripped form),
and a section whose paragraphs are all empty or whitespace-only
contributes no chunks: deleting it from the section list leaves the
chunker output unchanged. -/
theorem chunk_text_clean (size ov : Nat) :
    (∀ (books : List Book), ∀ c ∈ chunk_text size ov books,
      c.text ≠ [] ∧ pyStrip c.text = c.text) ∧
    (∀ (l1 l2 : List Book) (b : Book), (∀ p ∈ splitPar b.text, pyStrip p = []) →
      chunk_text size ov (l1 ++ b :: l2) = chunk_text size ov (l1 ++ l2)) := by
  constructor
  · intro books
    exact foldl_inv (P := fun acc : List Chunk × Nat => goodClean acc.1)
      (procBook size ov) (fun s a hs => procBook_goodClean size ov s a hs)
      books ([], 0) (fun c hc => absurd hc (by simp))
  · intro l1 l2 b hb
    have hpara : ∀ p ∈ splitPar b.text, ∀ s : CState, procPara size ov b.number s p = s := by
      intro p hp s
      simp [procPara, hb p hp]
    have hbook : ∀ acc : List Chunk × Nat, procBook size ov acc b = acc := by
      intro acc
      have hfold : List.foldl (procPara size ov b.number)
          { cur := [], curTok := 0, chunks := acc.1, chunkId := acc.2 } (splitPar b.text) =
          { cur := [], curTok := 0, chunks := acc.1, chunkId := acc.2 } :=
        foldl_fixed _ _ hpara _
      simp only [procBook, hfold]
      rw [if_neg (by simp [pyStrip])]
    unfold chunk_text
    rw [List.foldl_append, List.foldl_append, List.foldl_cons, hbook]

/-- Witness for C10: the chunk of `bkI` is clean, and inserting the
all-whitespace section `bkWS` leaves the output unchanged. -/
theorem chunk_text_clean_witness :
    (chunkAbc.text ≠ [] ∧ pyStrip chunkAbc.text = chunkAbc.text) ∧
    chunk_text 8 1 ([bkI] ++ bkWS :: []) = chunk_text 8 1 ([bkI] ++ []) :=
  ⟨(chunk_text_clean 8 1).1 [bkI] chunkAbc (by decide),
   (chunk_text_clean 8 1).2 [bkI] [] bkWS (by decide)⟩

/-! ### Claim C1 -/

/-- `procPara` and `procParaI` compute the same chunks. -/
theorem procParaI_erase (size ov : Nat) (bn : List Char) (s : CStateI) (p : List Char) :
    procPara size ov bn (eraseStI s) p = eraseStI (procParaI size ov bn s p) := by
  by_cases h1 : pyStrip p = []
  · simp [procPara, procParaI, h1]
  · by_cases h2 : s.curTok + estimate_tokens (pyStrip p) > size ∧ s.cur ≠ []
    · simp only [procPara, procParaI, eraseStI, if_neg h1]
      rw [if_pos h2, if_pos h2]
      simp
    · simp only [procPara, procParaI, eraseStI, if_neg h1]
      rw [if_neg h2, if_neg h2]
      by_cases h3 : s.cur = [] <;> simp [h3]

/-- `procBook` and `procBookI` compute the same chunks. -/
theorem procBookI_erase (size ov : Nat) (acc : List ChunkI × Nat) (b : Book) :
    procBook size ov (acc.1.map ChunkI.chunk, acc.2) b =
      ((procBookI size ov acc b).1.map ChunkI.chunk, (procBookI size ov acc b).2) := by
  have hfold := foldl_commute (procPara size ov b.number) eraseStI
    (procParaI size ov b.number) (procParaI_erase size ov b.number)
    (splitPar b.text) { cur := [], curTok := 0, grew := false, chunks := acc.1, chunkId := acc.2 }
  have hinit : eraseStI { cur := [], curTok := 0, grew := false, chunks := acc.1, chunkId := acc.2 } =
      { cur := [], curTok := 0, chunks := acc.1.map ChunkI.chunk, chunkId := acc.2 } := rfl
  rw [hinit] at hfold
  by_cases hc : pyStrip (List.foldl (procParaI size ov b.number)
      { cur := [], curTok := 0, grew := false, chunks := acc.1, chunkId := acc.2 }
      (splitPar b.text)).cur = []
  · simp [procBook, procBookI, hfold, eraseStI, hc]
  · simp [procBook, procBookI, hfold, eraseStI, hc]

/-- Erasing the instrumentation of `chunk_textI` recovers `chunk_text`. -/
theorem chunk_textI_erase (size ov : Nat) (books : List Book) :
    chunk_text size ov books = (chunk_textI size ov books).map ChunkI.chunk := by
  unfold chunk_text chunk_textI
  have h := foldl_commute (procBook size ov)
    (fun acc : List ChunkI × Nat => (acc.1.map ChunkI.chunk, acc.2))
    (procBookI size ov) (fun s a => procBookI_erase size ov s a) books ([], 0)
  calc (List.foldl (procBook size ov) ([], 0) books).1
      = (List.foldl (procBook size ov)
          ((([] : List ChunkI).map ChunkI.chunk, 0)) books).1 := rfl
    _ = _ := by rw [h]

/-- `procParaI` preserves the running-counter invariant. -/
theorem procParaI_invTok (size ov : Nat) (bn : List Char) (s : CStateI) (p : List Char)
    (h : invTok size s) : invTok size (procParaI size ov bn s p) := by
  obtain ⟨hcur, hchunks⟩ := h
  by_cases h1 : pyStrip p = []
  · simpa [procParaI, h1] using ⟨hcur, hchunks⟩
  · by_cases h2 : s.curTok + estimate_tokens (pyStrip p) > size ∧ s.cur ≠ []
    · simp only [procParaI, if_neg h1, if_pos h2]
      refine ⟨Or.inr rfl, ?_⟩
      intro r hr
      rcases List.mem_append.mp hr with hr1 | hr1
      · exact hchunks r hr1
      · rcases List.mem_singleton.mp hr1 with rfl
        exact hcur
    · simp only [procParaI, if_neg h1, if_neg h2]
      by_cases h3 : s.cur = []
      · rw [if_pos h3]
        exact ⟨Or.inr rfl, hchunks⟩
      · rw [if_neg h3]
        refine ⟨Or.inl ?_, hchunks⟩
        push_neg at h2
        exact Nat.le_of_not_lt fun hlt => h3 (h2 hlt)

/-- `procBookI` preserves the running-counter property of the emitted
records. -/
theorem procBookI_invTok (size ov : Nat) (acc : List ChunkI × Nat) (b : Book)
    (h : ∀ r ∈ acc.1, r.tokAtEmit ≤ size ∨ r.grew = false) :
    ∀ r ∈ (procBookI size ov acc b).1, r.tokAtEmit ≤ size ∨ r.grew = false := by
  have hfold := foldl_inv (P := invTok size) (procParaI size ov b.number)
    (fun s a hs => procParaI_invTok size ov b.number s a hs)
    (splitPar b.text)
    { cur := [], curTok := 0, grew := false, chunks := acc.1, chunkId := acc.2 }
    ⟨Or.inl (Nat.zero_le _), h⟩
  by_cases hc : pyStrip (List.foldl (procParaI size ov b.number)
      { cur := [], curTok := 0, grew := false, chunks := acc.1, chunkId := acc.2 }
      (splitPar b.text)).cur = []
  · simpa [procBookI, hc] using hfold.2
  · simp only [procBookI]
    rw [if_pos hc]
    intro r hr
    rcases List.mem_append.mp hr with hr1 | hr1
    · exact hfold.2 r hr1
    · rcases List.mem_singleton.mp hr1 with rfl
      exact hfold.1

/-- All records of the instrumented chunker satisfy the
running-counter property. -/
theorem chunk_textI_invTok (size ov : Nat) (books : List Book) :
    ∀ r ∈ chunk_textI size ov books, r.tokAtEmit ≤ size ∨ r.grew = false := by
  unfold chunk_textI
  exact foldl_inv
    (P := fun acc : List ChunkI × Nat => ∀ r ∈ acc.1, r.tokAtEmit ≤ size ∨ r.grew = false)
    (procBookI size ov) (fun s a hs => procBookI_invTok size ov s a hs)
    books ([], 0) (fun r hr => absurd hr (by simp))

/-- C1 counterexample: a section of nine 3-character paragraphs
(each estimating to 0 tokens) is flushed as a single chunk whose
estimated token count is 10, exceeding the budget of 8, although the
chunk is made of nine separately splittable paragraphs, each of
estimated size 0 ≤ 8 — it is not a single unsplittable paragraph whose
own estimate exceeds the budget. -/
theorem chunk_budget_counterexample :
    ((chunk_text 8 1 [bkTiny]).map fun c => estimate_tokens c.text) = [10] ∧
    8 < 10 ∧
    ((chunk_text 8 1 [bkTiny]).map fun c => (splitPar c.text).length) = [9] ∧
    ∀ c ∈ chunk_text 8 1 [bkTiny], ∀ p ∈ splitPar c.text,
      estimate_tokens (pyStrip p) ≤ 8 := by
  refine ⟨by decide, by decide, by decide, by decide⟩

/-- C1 (amended): the budget bound holds of the chunker's *running
token counter*, not of the emitted text's own `len/4` estimate.  The
instrumented chunker `chunk_textI` computes exactly the chunks of
`chunk_text` and records, for each emitted chunk, the counter at
emission (the estimate of the overlap seed plus the sum of the
individual estimates of the paragraphs appended after it — which
undercounts the blank-line joiners and each paragraph's rounding) and
whether the buffer ever grew past its initial content.  Every emitted
chunk either has counter at most the budget, or is still its initial
buffer content: a lone paragraph, or the overlap seed plus the single
paragraph that triggered the previous close (both of which may exceed
the budget, the first being the claim's original exception). -/
theorem chunk_budget_amended (size ov : Nat) (books : List Book) :
    chunk_text size ov books = (chunk_textI size ov books).map ChunkI.chunk ∧
    ∀ r ∈ chunk_textI size ov books, r.tokAtEmit ≤ size ∨ r.grew = false :=
  ⟨chunk_textI_erase size ov books, chunk_textI_invTok size ov books⟩

/-- Witness for the amended C1 theorem on the tiny-paragraph fixture. -/
theorem chunk_budget_amended_witness :
    chunk_text 8 1 [bkTiny] = (chunk_textI 8 1 [bkTiny]).map ChunkI.chunk ∧
    (chunkITiny.tokAtEmit ≤ 8 ∨ chunkITiny.grew = false) :=
  ⟨(chunk_budget_amended 8 1 [bkTiny]).1,
   (chunk_budget_amended 8 1 [bkTiny]).2 chunkITiny (by decide)⟩

/-! ### Claim C7 -/

/-- With sufficient fuel, the batches concatenate back to the input:
the partition is consecutive and loses nothing. -/
theorem chunksOfF_flatten {α : Type} (bs : Nat) :
    ∀ (fuel : Nat) (l : List α), l.length ≤ fuel → (chunksOfF bs fuel l).flatten = l := by
  intro fuel
  induction fuel with
  | zero =>
    intro l h
    cases l with
    | nil => rfl
    | cons t ts => simp at h
  | succ n ih =>
    intro l h
    cases l with
    | nil => rfl
    | cons t ts =>
      have hb : 1 ≤ max bs 1 := le_max_right _ _
      have hd : ((t :: ts).drop (max bs 1)).length ≤ n := by
        simp only [List.length_drop, List.length_cons]
        simp only [List.length_cons] at h
        omega
      simp only [chunksOfF, List.flatten_cons, ih _ hd, List.take_append_drop]

/-- Every batch of the partition is non-empty and holds at most
`max bs 1` items. -/
theorem chunksOfF_bound {α : Type} (bs : Nat) :
    ∀ (fuel : Nat) (l : List α), l.length ≤ fuel →
      ∀ b ∈ chunksOfF bs fuel l, b ≠ [] ∧ b.length ≤ max bs 1 := by
  intro fuel
  induction fuel with
  | zero =>
    intro l h b hb
    cases l with
    | nil => simp [chunksOfF] at hb
    | cons t ts => simp at h
  | succ n ih =>
    intro l h b hb
    cases l with
    | nil => simp [chunksOfF] at hb
    | cons t ts =>
      have hd : ((t :: ts).drop (max bs 1)).length ≤ n := by
        simp only [List.length_drop, List.length_cons]
        simp only [List.length_cons] at h
        have hb1 : 1 ≤ max bs 1 := le_max_right _ _
        omega
      simp only [chunksOfF, List.mem_cons] at hb
      rcases hb with rfl | hb2
      · constructor
        · obtain ⟨k, hk⟩ : ∃ k, max bs 1 = k + 1 :=
            ⟨max bs 1 - 1, by have := le_max_right bs 1; omega⟩
          rw [hk]
          simp
        · rw [List.length_take]
          exact min_le_left _ _
      · exact ih _ hd b hb2

/-- The partition of a non-empty list is non-empty. -/
theorem chunksOfF_ne_nil {α : Type} (bs fuel : Nat) (l : List α)
    (hl : l ≠ []) (hf : l.length ≤ fuel) : chunksOfF bs fuel l ≠ [] := by
  cases l with
  | nil => exact absurd rfl hl
  | cons t ts =>
    cases fuel with
    | zero => simp at hf
    | succ n => simp [chunksOfF]

/-- With a pointwise embedding capability (one vector per text, in
order, as the external contract promises), the batching loop returns
exactly the per-text embeddings in input order, and its event trace is
one document-purpose call per consecutive batch with a pacing sleep
between consecutive batches and none after the last. -/
theorem genGoF_spec {α β : Type} (f : α → β) (bs : Nat) :
    ∀ (fuel : Nat) (l : List α), l.length ≤ fuel →
      genGoF (fun l2 => l2.map f) bs fuel l = (l.map f, batchTrace (chunksOfF bs fuel l)) := by
  intro fuel
  induction fuel with
  | zero =>
    intro l h
    cases l with
    | nil => rfl
    | cons t ts => simp at h
  | succ n ih =>
    intro l h
    cases l with
    | nil => rfl
    | cons t ts =>
      have hd : ((t :: ts).drop (max bs 1)).length ≤ n := by
        simp only [List.length_drop, List.length_cons]
        simp only [List.length_cons] at h
        have hb1 : 1 ≤ max bs 1 := le_max_right _ _
        omega
      by_cases hrest : (t :: ts).drop (max bs 1) = []
      · simp only [genGoF, chunksOfF, hrest, List.isEmpty_nil, if_true]
        have hl : (t :: ts).take (max bs 1) = t :: ts := by
          have := List.take_append_drop (max bs 1) (t :: ts)
          rw [hrest, List.append_nil] at this
          exact this
        rw [hl]
        rfl
      · have hne := chunksOfF_ne_nil bs n _ hrest hd
        simp only [genGoF, chunksOfF, ih _ hd]
        rw [if_neg (by simpa using hrest)]
        cases hcc : chunksOfF bs n ((t :: ts).drop (max bs 1)) with
        | nil => exact absurd hcc hne
        | cons c2 cs2 =>
          simp only [batchTrace]
          rw [← List.map_append, List.take_append_drop]

/-- C7: `generate_embeddings` partitions the texts into consecutive
batches of at most 128 items (the code's `batch_size`), calls the
embedding capability once per batch with "document" purpose, and
concatenates the results in batch order — so when the capability
returns one vector per text in order (`fun l => l.map f`), the `i`-th
output vector is the embedding of the `i`-th input text; a pacing sleep
occurs between consecutive batches and never after the last. -/
theorem generate_embeddings_spec {α β : Type} (f : α → β) (texts : List α) :
    generate_embeddings (fun l => l.map f) texts =
      (texts.map f, batchTrace (chunksOf 128 texts)) ∧
    (chunksOf 128 texts).flatten = texts ∧
    ∀ b ∈ chunksOf 128 texts, b ≠ [] ∧ b.length ≤ 128 := by
  refine ⟨genGoF_spec f 128 texts.length texts le_rfl,
    chunksOfF_flatten 128 texts.length texts le_rfl, ?_⟩
  intro b hb
  have := chunksOfF_bound 128 texts.length texts le_rfl b hb
  simpa using this

/-- Witness for C7 on a three-element list (one batch). -/
theorem generate_embeddings_spec_witness :
    generate_embeddings (fun l => l.map Nat.succ) [1, 2, 3] =
      ([1, 2, 3].map Nat.succ, batchTrace (chunksOf 128 [1, 2, 3])) ∧
    (([1, 2, 3] : List Nat) ≠ [] ∧ ([1, 2, 3] : List Nat).length ≤ 128) :=
  ⟨(generate_embeddings_spec Nat.succ [1, 2, 3]).1,
   (generate_embeddings_spec Nat.succ [1, 2, 3]).2.2 [1, 2, 3] (by decide)⟩

/-! ### Claim C8 -/

/-- If the embedding capability fails on some batch of the partition,
the whole fallible embedding loop fails (the first failing call
aborts it). -/
theorem genFF_not_ok {α β ε : Type} (embed : List α → Except ε (List β)) (bs : Nat) :
    ∀ (fuel : Nat) (l : List α), l.length ≤ fuel →
      (∃ b ∈ chunksOfF bs fuel l, exceptOk (embed b) = false) →
      exceptOk (genFF embed bs fuel l) = false := by
  intro fuel
  induction fuel with
  | zero =>
    intro l h hex
    cases l with
    | nil => simp [chunksOfF] at hex
    | cons t ts => simp at h
  | succ n ih =>
    intro l h hex
    cases l with
    | nil => simp [chunksOfF] at hex
    | cons t ts =>
      have hd : ((t :: ts).drop (max bs 1)).length ≤ n := by
        simp only [List.length_drop, List.length_cons]
        simp only [List.length_cons] at h
        have hb1 : 1 ≤ max bs 1 := le_max_right _ _
        omega
      obtain ⟨b, hb, hbf⟩ := hex
      simp only [chunksOfF, List.mem_cons] at hb
      cases hembed : embed ((t :: ts).take (max bs 1)) with
      | error e => simp [genFF, hembed, exceptOk]
      | ok vs =>
        rcases hb with rfl | hb2
        · rw [hembed] at hbf
          simp [exceptOk] at hbf
        · have hrec := ih _ hd ⟨b, hb2, hbf⟩
          simp only [genFF, hembed]
          cases hg : genFF embed bs n ((t :: ts).drop (max bs 1)) with
          | error e2 => simp [exceptOk]
          | ok vs2 =>
            rw [hg] at hrec
            simp [exceptOk] at hrec

/-- C8: if any embedding batch call fails during ingestion, the
ingestion tail of `main` aborts with an error and the persistent vector
store is left exactly as it was — the destructive replacement performed
by `create_vector_database` runs only after every embedding has been
computed successfully. -/
theorem mainIngest_abort {ε β : Type} (embed : List (List Char) → Except ε (List β))
    (books : List Book) (store : Option (List (VEntry β)))
    (h : ∃ b ∈ chunksOf 128 ((chunk_text CHUNK_SIZE CHUNK_OVERLAP books).map Chunk.text),
      exceptOk (embed b) = false) :
    (mainIngest embed books store).2 = store ∧
    exceptOk (mainIngest embed books store).1 = false := by
  have hfail : exceptOk (generate_embeddings_f embed
      ((chunk_text CHUNK_SIZE CHUNK_OVERLAP books).map Chunk.text)) = false :=
    genFF_not_ok embed 128 _ _ le_rfl h
  unfold mainIngest
  cases hg : generate_embeddings_f embed
      ((chunk_text CHUNK_SIZE CHUNK_OVERLAP books).map Chunk.text) with
  | error e => simp [hg, exceptOk]
  | ok vs =>
    rw [hg] at hfail
    simp [exceptOk] at hfail

/-- Witness for C8: a failing embedding capability, one section, and a
pre-existing (empty) collection that survives the aborted run. -/
theorem mainIngest_abort_witness :
    (∃ b ∈ chunksOf 128 ((chunk_text CHUNK_SIZE CHUNK_OVERLAP [bkI]).map Chunk.text),
      exceptOk (embedFail b) = false) ∧
    (mainIngest embedFail [bkI] (some [])).2 = some [] ∧
    exceptOk (mainIngest embedFail [bkI] (some [])).1 = false :=
  ⟨by decide,
   (mainIngest_abort embedFail [bkI] (some []) (by decide)).1,
   (mainIngest_abort embedFail [bkI] (some []) (by decide)).2⟩
